import Mathlib

/-!
Shallow embedding of the sequence-analysis and query-building core of the
biocat repository (src/dna_visualization.py, src/database.py, src/app.py),
together with theorems settling the specification claims about it.

Python strings are modelled as `List Char`; Python floats as exact
rationals `ℚ`; a Python function that can raise is modelled as returning
`Option`.
-/

/-! ## Alphabets and basic cleaning -/

/-- The four DNA bases kept by the code's cleaning regexes (`[^ATGC]`). -/
def dna_bases : List Char := ['A', 'T', 'G', 'C']

/-- The five-letter DNA alphabet of the spec (bases plus `N`). -/
def dna_alphabet : List Char := ['A', 'T', 'G', 'C', 'N']

/-- The 20 standard amino-acid residues, as in the regex
`[^ACDEFGHIKLMNPQRSTVWY]` of `plot_hydrophobicity_profile`. -/
def protein_residues : List Char :=
  ['A', 'C', 'D', 'E', 'F', 'G', 'H', 'I', 'K', 'L', 'M', 'N', 'P', 'Q',
   'R', 'S', 'T', 'V', 'W', 'Y']

/-- `sequence.upper().replace(" ", "")` — the preprocessing used by
`analyze_nucleotide_composition` and `plot_gc_content_window`. -/
def upper_nospace (s : List Char) : List Char :=
  (s.map Char.toUpper).filter (fun c => c ≠ ' ')

/-- The sequence cleaning of `plot_dna_double_helix`
(src/dna_visualization.py:726-727):
`sequence.upper().replace(" ", "").replace("\n", "")` followed by
`re.sub(r"[^ATGC]", "", sequence)`. -/
def clean_dna (s : List Char) : List Char :=
  ((((s.map Char.toUpper).filter (fun c => c ≠ ' ')).filter
      (fun c => c ≠ '\n')).filter (fun c => c ∈ dna_bases))

/-- The pattern cleaning `re.sub(r"[^ATCG]", "", pattern.upper())` shared by
`app.search_sequences_by_pattern` (src/app.py:199) and
`BiocatDatabase.search_sequences_by_pattern` (src/database.py:604). -/
def clean_pattern (p : List Char) : List Char :=
  (p.map Char.toUpper).filter (fun c => c ∈ dna_bases)

/-! ## Nucleotide composition (`analyze_nucleotide_composition`) -/

/-- One percentage entry: `(count / total_length) * 100 if total_length > 0
else 0`, with `count = sequence.count(nucleotide)` taken over the
preprocessed sequence. -/
def nuc_percent (sq : List Char) (c : Char) : ℚ :=
  if 0 < sq.length then ((sq.count c : ℚ) / (sq.length : ℚ)) * 100 else 0

/-- GC-content entry of the composition dict:
`((count(G) + count(C)) / total_length) * 100 if total_length > 0 else 0`. -/
def gc_content_percent (sq : List Char) : ℚ :=
  if 0 < sq.length then
    (((sq.count 'G' + sq.count 'C' : ℕ) : ℚ) / (sq.length : ℚ)) * 100
  else 0

/-- `DNAVisualizer.analyze_nucleotide_composition`
(src/dna_visualization.py:65-94): returns `{}` on empty input, otherwise the
dict with one percentage per nucleotide of `A,T,G,C,N` plus `GC_content`,
computed over the upper-cased, space-stripped sequence. -/
def analyze_nucleotide_composition (s : List Char) : List (String × ℚ) :=
  if s.isEmpty then []
  else
    let sq := upper_nospace s
    [("A", nuc_percent sq 'A'), ("T", nuc_percent sq 'T'),
     ("G", nuc_percent sq 'G'), ("C", nuc_percent sq 'C'),
     ("N", nuc_percent sq 'N'), ("GC_content", gc_content_percent sq)]

/-! ## Helper lemmas -/

/-- Over a duplicate-free symbol list, the indicator of one member sums
to `1`. -/
theorem sum_map_indicator (x : Char) (cs : List Char)
    (hnd : cs.Nodup) (hx : x ∈ cs) :
    (cs.map (fun c => if c = x then (1 : ℕ) else 0)).sum = 1 := by
  induction cs with
  | nil => cases hx
  | cons y ys ih =>
    rcases List.nodup_cons.mp hnd with ⟨hy_not, hnd'⟩
    rcases List.mem_cons.mp hx with hxy | hmem
    · subst hxy
      have hz : (ys.map (fun c => if c = x then (1 : ℕ) else 0)).sum = 0 := by
        refine List.sum_eq_zero ?_
        intro z hz
        rcases List.mem_map.mp hz with ⟨w, hw, hwz⟩
        have hwx : w ≠ x := fun h => hy_not (h ▸ hw)
        simpa [hwx] using hwz.symm
      simp [hz]
    · have hyx : y ≠ x := fun h => hy_not (h ▸ hmem)
      simp [hyx, ih hnd' hmem]

/-- Summing the per-symbol counts over a duplicate-free list of symbols that
covers every element of `s` yields the length of `s`. -/
theorem sum_count_of_cover (s : List Char) (cs : List Char)
    (hnd : cs.Nodup) (hcov : ∀ c ∈ s, c ∈ cs) :
    (cs.map (fun c => s.count c)).sum = s.length := by
  induction s with
  | nil => simp
  | cons x xs ih =>
    have hx : x ∈ cs := hcov x (List.mem_cons_self x xs)
    have hxs : ∀ c ∈ xs, c ∈ cs := fun c hc => hcov c (List.mem_cons_of_mem x hc)
    have hstep : (cs.map (fun c => (x :: xs).count c)).sum
        = ((cs.map (fun c => xs.count c)).sum
          + (cs.map (fun c => if c = x then (1 : ℕ) else 0)).sum) := by
      rw [← List.sum_map_add]
      refine congrArg List.sum (List.map_congr_left ?_)
      intro c _
      by_cases hcx : c = x
      · subst hcx
        simp
      · simp [List.count_cons_of_ne hcx, hcx]
    rw [hstep, ih hxs, sum_map_indicator x cs hnd hx]
    simp

/-- Upper-casing fixes every character of the five-letter DNA alphabet. -/
theorem alphabet_upper_fix : ∀ c ∈ dna_alphabet, c.toUpper = c := by decide

/-- No character of the DNA alphabet is a space. -/
theorem alphabet_ne_space : ∀ c ∈ dna_alphabet, c ≠ ' ' := by decide

/-- On a sequence over the DNA alphabet the preprocessing of
`analyze_nucleotide_composition` is the identity. -/
theorem upper_nospace_eq_self (s : List Char)
    (h : ∀ c ∈ s, c ∈ dna_alphabet) : upper_nospace s = s := by
  unfold upper_nospace
  have hmap : s.map Char.toUpper = s := by
    calc s.map Char.toUpper
        = s.map id := List.map_congr_left (fun c hc => alphabet_upper_fix c (h c hc))
      _ = s := List.map_id s
  rw [hmap]
  refine List.filter_eq_self.mpr ?_
  intro a ha
  simpa using alphabet_ne_space a (h a ha)

/-! ## Claim C2: nucleotide composition sums to 100 -/

/-- C2: for every non-empty sequence over `{A,T,G,C,N}` the five per-symbol
percentages of `analyze_nucleotide_composition` sum to exactly 100; on the
empty sequence the returned composition is the empty dict, so every value in
it is (vacuously) 0. -/
theorem c2_nucleotide_composition (s : List Char) (hne : s ≠ [])
    (halpha : ∀ c ∈ s, c ∈ dna_alphabet) :
    (∃ qgc, analyze_nucleotide_composition s
        = [("A", nuc_percent s 'A'), ("T", nuc_percent s 'T'),
           ("G", nuc_percent s 'G'), ("C", nuc_percent s 'C'),
           ("N", nuc_percent s 'N'), ("GC_content", qgc)]
      ∧ nuc_percent s 'A' + nuc_percent s 'T' + nuc_percent s 'G'
          + nuc_percent s 'C' + nuc_percent s 'N' = 100)
    ∧ ∀ p ∈ analyze_nucleotide_composition [], p.2 = 0 := by
  constructor
  · have hemp : s.isEmpty = false := by
      cases s with
      | nil => exact absurd rfl hne
      | cons a l => rfl
    have hsq : upper_nospace s = s := upper_nospace_eq_self s halpha
    refine ⟨gc_content_percent s, ?_, ?_⟩
    · simp [analyze_nucleotide_composition, hemp, hsq]
    · have hlen : 0 < s.length := List.length_pos.mpr hne
      have hsum : s.count 'A' + s.count 'T' + s.count 'G' + s.count 'C'
          + s.count 'N' = s.length := by
        have h := sum_count_of_cover s dna_alphabet (by decide) halpha
        simp [dna_alphabet] at h
        omega
      have hq : ((s.count 'A' : ℚ) + s.count 'T' + s.count 'G' + s.count 'C'
          + s.count 'N') = (s.length : ℚ) := by exact_mod_cast hsum
      have hL : ((s.length : ℚ)) ≠ 0 := by
        exact_mod_cast Nat.pos_iff_ne_zero.mp hlen
      simp only [nuc_percent, if_pos hlen]
      field_simp
      linarith [hq]
  · intro p hp
    simp [analyze_nucleotide_composition] at hp

/-! ## Claim C9: DNA sequence cleaning -/

/-- Every character surviving `clean_dna` is one of the four bases. -/
theorem clean_dna_subset (s : List Char) : ∀ c ∈ clean_dna s, c ∈ dna_bases := by
  intro c hc
  unfold clean_dna at hc
  have h2 := (List.mem_filter.mp hc).2
  simpa using h2

/-- Each base is a non-space, non-newline character fixed by upper-casing. -/
theorem bases_clean_chars :
    ∀ c ∈ dna_bases, c.toUpper = c ∧ c ≠ ' ' ∧ c ≠ '\n' := by decide

/-- `clean_dna` is the identity on lists of bases. -/
theorem clean_dna_of_bases (l : List Char) (h : ∀ c ∈ l, c ∈ dna_bases) :
    clean_dna l = l := by
  unfold clean_dna
  have hmap : l.map Char.toUpper = l := by
    calc l.map Char.toUpper
        = l.map id := List.map_congr_left (fun c hc => (bases_clean_chars c (h c hc)).1)
      _ = l := List.map_id l
  have h1 : l.filter (fun c => c ≠ ' ') = l :=
    List.filter_eq_self.mpr (fun a ha => by
      simpa using (bases_clean_chars a (h a ha)).2.1)
  have h2 : l.filter (fun c => c ≠ '\n') = l :=
    List.filter_eq_self.mpr (fun a ha => by
      simpa using (bases_clean_chars a (h a ha)).2.2)
  have h3 : l.filter (fun c => c ∈ dna_bases) = l :=
    List.filter_eq_self.mpr (fun a ha => by simpa using h a ha)
  rw [hmap, h1, h2, h3]

/-- C9: cleaning against the DNA alphabet keeps only (upper-cased) valid
bases, is idempotent, cleans `"at-gc 123"` to `"ATGC"`, and yields the empty
sequence when no character upper-cases into the base set. -/
theorem c9_clean_dna (s : List Char) :
    clean_dna (clean_dna s) = clean_dna s
    ∧ (∀ c ∈ clean_dna s, c ∈ dna_bases)
    ∧ clean_dna ("at-gc 123".toList) = "ATGC".toList
    ∧ ((∀ c ∈ s, c.toUpper ∉ dna_bases) → clean_dna s = []) := by
  refine ⟨clean_dna_of_bases _ (clean_dna_subset s), clean_dna_subset s,
    by decide, ?_⟩
  intro h
  unfold clean_dna
  refine List.filter_eq_nil_iff.mpr ?_
  intro a ha
  have ha' : a ∈ s.map Char.toUpper := by
    have h1 := (List.mem_filter.mp ha).1
    exact (List.mem_filter.mp h1).1
  rcases List.mem_map.mp ha' with ⟨c, hc, rfl⟩
  simpa using h c hc

/-- Witness for C9's no-valid-character branch at the input `"x1 2"`. -/
theorem c9_clean_dna_witness :
    (∀ c ∈ ("x1 2".toList), c.toUpper ∉ dna_bases)
    ∧ clean_dna ("x1 2".toList) = [] :=
  ⟨by decide, (c9_clean_dna ("x1 2".toList)).2.2.2 (by decide)⟩

/-! ## Claim C10: the double-helix base loop never raises -/

/-- The fixed base-pairing dict `complement = {"A": "T", "T": "A", "G": "C",
"C": "G"}` of `plot_dna_double_helix` (src/dna_visualization.py:760); a
missing key is `none` (Python would raise `KeyError`). -/
def complement_table : List (Char × Char) :=
  [('A', 'T'), ('T', 'A'), ('G', 'C'), ('C', 'G')]

/-- Dict lookup `complement[base]`. -/
def complement (c : Char) : Option Char :=
  (complement_table.find? (fun p => p.1 = c)).map (fun p => p.2)

/-- Truncation `sequence[:max_length]` applied after cleaning
(src/dna_visualization.py:729-730). -/
def helix_sequence (s : List Char) (max_length : ℕ) : List Char :=
  (clean_dna s).take max_length

/-- The per-base loop `for i, base in enumerate(sequence): comp_base =
complement[base]` (src/dna_visualization.py:792-793), collecting the
complement labels of strand 2; `none` models a `KeyError`. -/
def strand2_labels : List Char → Option (List Char)
  | [] => some []
  | c :: rest =>
    match complement c, strand2_labels rest with
    | some d, some ds => some (d :: ds)
    | _, _ => none

/-- The two strands' base labels of the helix model, or `none` if the
complement lookup raised. -/
def helix_base_labels (s : List Char) (max_length : ℕ) :
    Option (List Char × List Char) :=
  match strand2_labels (helix_sequence s max_length) with
  | none => none
  | some comps => some (helix_sequence s max_length, comps)

/-- On base-only input the label loop succeeds and produces base labels. -/
theorem strand2_labels_of_bases (l : List Char) (h : ∀ c ∈ l, c ∈ dna_bases) :
    ∃ ds, strand2_labels l = some ds ∧ ∀ d ∈ ds, d ∈ dna_bases := by
  induction l with
  | nil => exact ⟨[], rfl, by simp⟩
  | cons c rest ih =>
    obtain ⟨ds, hds, hmem⟩ := ih (fun x hx => h x (List.mem_cons_of_mem c hx))
    have hc : c ∈ dna_bases := h c (List.mem_cons_self c rest)
    have hcompl : ∃ d, complement c = some d ∧ d ∈ dna_bases := by
      have hc' : c = 'A' ∨ c = 'T' ∨ c = 'G' ∨ c = 'C' := by
        simpa [dna_bases] using hc
      rcases hc' with rfl | rfl | rfl | rfl
      · exact ⟨'T', by decide, by decide⟩
      · exact ⟨'A', by decide, by decide⟩
      · exact ⟨'C', by decide, by decide⟩
      · exact ⟨'G', by decide, by decide⟩
    obtain ⟨d, hcd, hd⟩ := hcompl
    refine ⟨d :: ds, ?_, ?_⟩
    · simp [strand2_labels, hcd, hds]
    · intro x hx
      rcases List.mem_cons.mp hx with rfl | hx
      · exact hd
      · exact hmem x hx

/-- C10: for every input string the double-helix construction is total —
cleaning removes every non-`ATGC` character (`N` included), so every
complement lookup succeeds — and no strand label is ever `N`. -/
theorem c10_helix_never_raises (s : List Char) (max_length : ℕ) :
    ∃ l1 l2, helix_base_labels s max_length = some (l1, l2)
      ∧ (∀ c ∈ l1, (complement c).isSome = true ∧ c ≠ 'N')
      ∧ (∀ c ∈ l2, c ≠ 'N') := by
  have hsub : ∀ c ∈ helix_sequence s max_length, c ∈ dna_bases := by
    intro c hc
    exact clean_dna_subset s c (List.mem_of_mem_take hc)
  obtain ⟨ds, hds, hmem⟩ := strand2_labels_of_bases _ hsub
  refine ⟨helix_sequence s max_length, ds, ?_, ?_, ?_⟩
  · simp [helix_base_labels, hds]
  · intro c hc
    have hcb := hsub c hc
    have hc' : c = 'A' ∨ c = 'T' ∨ c = 'G' ∨ c = 'C' := by
      simpa [dna_bases] using hcb
    constructor
    · rcases hc' with rfl | rfl | rfl | rfl <;> decide
    · rcases hc' with rfl | rfl | rfl | rfl <;> decide
  · intro c hc
    have hcb := hmem c hc
    intro h
    subst h
    exact absurd hcb (by decide)

/-- Witness for C2 at the concrete sequence `"ATGCN"`. -/
theorem c2_nucleotide_composition_witness :
    ("ATGCN".toList ≠ ([] : List Char))
    ∧ ((∃ qgc, analyze_nucleotide_composition ("ATGCN".toList)
        = [("A", nuc_percent ("ATGCN".toList) 'A'),
           ("T", nuc_percent ("ATGCN".toList) 'T'),
           ("G", nuc_percent ("ATGCN".toList) 'G'),
           ("C", nuc_percent ("ATGCN".toList) 'C'),
           ("N", nuc_percent ("ATGCN".toList) 'N'), ("GC_content", qgc)]
      ∧ nuc_percent ("ATGCN".toList) 'A' + nuc_percent ("ATGCN".toList) 'T'
          + nuc_percent ("ATGCN".toList) 'G' + nuc_percent ("ATGCN".toList) 'C'
          + nuc_percent ("ATGCN".toList) 'N' = 100)
    ∧ ∀ p ∈ analyze_nucleotide_composition [], p.2 = 0) :=
  ⟨by decide, c2_nucleotide_composition ("ATGCN".toList) (by decide) (by decide)⟩

/-! ## Dynamic query builder (`get_dna_sequences`,
`search_sequences_by_pattern` of src/database.py)

A generated query is modelled as the list of f-string fragments it is
concatenated from: `lit` pieces are literal template text, `interp` pieces
are runtime values interpolated into the query text.  The second component
of each builder's result is the bound-parameter list passed to
`cursor.execute` — the code calls `execute_query_df(query)` with no
parameters, so it is always `[]`.  Whitespace inside the literal SQL is
normalized to single spaces. -/

inductive QFrag where
  | lit : String → QFrag
  | interp : String → QFrag
deriving DecidableEq

/-- The SQL single-quote character, `'`. -/
def sqlq : String := String.singleton (Char.ofNat 39)

/-- Fragments of the `source_table == "gene"` pattern-search query
(src/database.py:610-623). -/
def gene_search_frags (col pat lim : String) : List QFrag :=
  [.lit "SELECT g.gene_symbol, g.gene_name, s.species_name, LENGTH(g.",
   .interp col,
   .lit (") as sequence_length, LOCATE(" ++ sqlq), .interp pat,
   .lit (sqlq ++ ", g."), .interp col,
   .lit ") as pattern_position, LEFT(g.", .interp col,
   .lit ", 500) as sequence_preview FROM gene g JOIN species s ON g.species_id = s.species_id WHERE g.",
   .interp col, .lit (" LIKE " ++ sqlq ++ "%"), .interp pat,
   .lit ("%" ++ sqlq ++ " ORDER BY sequence_length DESC LIMIT "), .interp lim]

/-- Fragments of the `source_table == "transcript"` pattern-search query
(src/database.py:625-639). -/
def transcript_search_frags (col pat lim : String) : List QFrag :=
  [.lit "SELECT t.transcript_stable_id, g.gene_symbol, s.species_name, LENGTH(t.",
   .interp col,
   .lit (") as sequence_length, LOCATE(" ++ sqlq), .interp pat,
   .lit (sqlq ++ ", t."), .interp col,
   .lit ") as pattern_position, LEFT(t.", .interp col,
   .lit ", 500) as sequence_preview FROM transcript t JOIN gene g ON t.gene_id = g.gene_id JOIN species s ON g.species_id = s.species_id WHERE t.",
   .interp col, .lit (" LIKE " ++ sqlq ++ "%"), .interp pat,
   .lit ("%" ++ sqlq ++ " ORDER BY sequence_length DESC LIMIT "), .interp lim]

/-- Fragments of the generic-table pattern-search query
(src/database.py:641-651). -/
def generic_search_frags (tbl col pat lim : String) : List QFrag :=
  [.lit "SELECT *, LENGTH(", .interp col,
   .lit (") as sequence_length, LOCATE(" ++ sqlq), .interp pat,
   .lit (sqlq ++ ", "), .interp col,
   .lit ") as pattern_position, LEFT(", .interp col,
   .lit ", 500) as sequence_preview FROM ", .interp tbl,
   .lit " WHERE ", .interp col, .lit (" LIKE " ++ sqlq ++ "%"), .interp pat,
   .lit ("%" ++ sqlq ++ " ORDER BY LENGTH("), .interp col,
   .lit ") DESC LIMIT ", .interp lim]

/-- `BiocatDatabase.search_sequences_by_pattern` (src/database.py:582-657),
restricted to its query-building core: cleans the pattern with
`re.sub(r"[^ATCG]", "", pattern.upper())`, returns `None` when fewer than 3
valid bases survive, and otherwise builds the shape-dependent search query
with the cleaned pattern and the limit interpolated into the text and an
empty bound-parameter tuple. -/
def search_sequences_by_pattern (pattern : List Char)
    (source_table source_column : String) (lim : ℕ) :
    Option (List QFrag × List String) :=
  let cp := clean_pattern pattern
  if cp.length < 3 then none
  else
    let cps := String.mk cp
    if source_table = "gene" then
      some (gene_search_frags source_column cps (toString lim), [])
    else if source_table = "transcript" then
      some (transcript_search_frags source_column cps (toString lim), [])
    else
      some (generic_search_frags source_table source_column cps
        (toString lim), [])

/-- Fragments of the `source_table == "chromosome"` retrieval query
(src/database.py:469-485). -/
def chromosome_fetch_frags (col minlen lim : String) : List QFrag :=
  [.lit "SELECT c.chromosome_id, c.chromosome_name, s.species_name, c.sequence_length, LEFT(c.",
   .interp col, .lit ", 1000) as sequence_preview, c.", .interp col,
   .lit " as full_sequence FROM chromosome c JOIN genome_assembly ga ON c.assembly_id = ga.assembly_id JOIN species s ON ga.species_id = s.species_id WHERE c.",
   .interp col, .lit " IS NOT NULL AND LENGTH(c.", .interp col,
   .lit ") >= ", .interp minlen,
   .lit " ORDER BY c.sequence_length DESC LIMIT ", .interp lim]

/-- Fragments of the `source_table == "gene"` retrieval query
(src/database.py:486-504). -/
def gene_fetch_frags (col minlen lim : String) : List QFrag :=
  [.lit "SELECT g.gene_id, g.gene_symbol, g.gene_name, s.species_name, c.chromosome_name, LENGTH(g.",
   .interp col, .lit ") as sequence_length, LEFT(g.", .interp col,
   .lit ", 1000) as sequence_preview, g.", .interp col,
   .lit " as full_sequence FROM gene g JOIN species s ON g.species_id = s.species_id LEFT JOIN chromosome c ON g.chromosome_id = c.chromosome_id WHERE g.",
   .interp col, .lit " IS NOT NULL AND LENGTH(g.", .interp col,
   .lit ") >= ", .interp minlen, .lit " ORDER BY LENGTH(g.", .interp col,
   .lit ") DESC LIMIT ", .interp lim]

/-- Fragments of the `source_table == "transcript"` retrieval query
(src/database.py:505-523). -/
def transcript_fetch_frags (col minlen lim : String) : List QFrag :=
  [.lit "SELECT t.transcript_id, t.transcript_stable_id, g.gene_symbol, g.gene_name, s.species_name, LENGTH(t.",
   .interp col, .lit ") as sequence_length, LEFT(t.", .interp col,
   .lit ", 1000) as sequence_preview, t.", .interp col,
   .lit " as full_sequence FROM transcript t JOIN gene g ON t.gene_id = g.gene_id JOIN species s ON g.species_id = s.species_id WHERE t.",
   .interp col, .lit " IS NOT NULL AND LENGTH(t.", .interp col,
   .lit ") >= ", .interp minlen, .lit " ORDER BY LENGTH(t.", .interp col,
   .lit ") DESC LIMIT ", .interp lim]

/-- Fragments of the generic-table retrieval query
(src/database.py:524-537). -/
def generic_fetch_frags (tbl col minlen lim : String) : List QFrag :=
  [.lit "SELECT *, LENGTH(", .interp col,
   .lit ") as sequence_length, LEFT(", .interp col,
   .lit ", 1000) as sequence_preview, ", .interp col,
   .lit " as full_sequence FROM ", .interp tbl, .lit " WHERE ", .interp col,
   .lit " IS NOT NULL AND LENGTH(", .interp col, .lit ") >= ",
   .interp minlen, .lit " ORDER BY LENGTH(", .interp col,
   .lit ") DESC LIMIT ", .interp lim]

/-- `BiocatDatabase.get_dna_sequences` (src/database.py:445-543), restricted
to its query-building core: the shape-dependent retrieval query, with
`min_length` and `limit` interpolated into the text and an empty
bound-parameter tuple. -/
def get_dna_sequences (source_table source_column : String)
    (lim min_length : ℕ) : List QFrag × List String :=
  if source_table = "chromosome" then
    (chromosome_fetch_frags source_column (toString min_length)
      (toString lim), [])
  else if source_table = "gene" then
    (gene_fetch_frags source_column (toString min_length) (toString lim), [])
  else if source_table = "transcript" then
    (transcript_fetch_frags source_column (toString min_length)
      (toString lim), [])
  else
    (generic_fetch_frags source_table source_column (toString min_length)
      (toString lim), [])

/-- C1 is refuted by the code: at concrete inputs the cleaned search
pattern, the result-count limit and the minimum-length threshold all occur
as interpolated fragments of the generated query text, and the
bound-parameter list handed to the query-execution call is empty. -/
theorem c1_query_values_interpolated :
    search_sequences_by_pattern ("ATCG".toList) "gene" "dna_sequence" 20
      = some (gene_search_frags "dna_sequence" "ATCG" "20", [])
    ∧ QFrag.interp "ATCG" ∈ gene_search_frags "dna_sequence" "ATCG" "20"
    ∧ QFrag.interp "20" ∈ gene_search_frags "dna_sequence" "ATCG" "20"
    ∧ get_dna_sequences "gene" "dna_sequence" 50 10
      = (gene_fetch_frags "dna_sequence" "10" "50", [])
    ∧ QFrag.interp "10" ∈ gene_fetch_frags "dna_sequence" "10" "50"
    ∧ QFrag.interp "50" ∈ gene_fetch_frags "dna_sequence" "10" "50" := by
  refine ⟨by decide, by decide, by decide, by decide, by decide, by decide⟩

/-! ## Claim C8: pattern cleaning and rejection -/

/-- C8: pattern cleaning keeps only characters that are (after
upper-casing) among `A,T,C,G`; a pattern with fewer than 3 surviving
characters is rejected (`None`) before any query is built; `"xxAtCgxx"`
cleans to `"ATCG"` and is accepted while `"AT"` is rejected. -/
theorem c8_pattern_validation (p : List Char) (t c : String) (lim : ℕ) :
    (∀ ch ∈ clean_pattern p, ch ∈ dna_bases)
    ∧ ((clean_pattern p).length < 3
        → search_sequences_by_pattern p t c lim = none)
    ∧ clean_pattern ("xxAtCgxx".toList) = "ATCG".toList
    ∧ (search_sequences_by_pattern ("xxAtCgxx".toList) "gene"
        "dna_sequence" 20).isSome = true
    ∧ search_sequences_by_pattern ("AT".toList) "gene" "dna_sequence" 20
        = none := by
  refine ⟨?_, ?_, by decide, by decide, by decide⟩
  · intro ch hch
    have h2 := (List.mem_filter.mp hch).2
    simpa using h2
  · intro h
    simp [search_sequences_by_pattern, h]

/-- Witness for C8's rejection branch at the concrete pattern `"AT"`. -/
theorem c8_pattern_validation_witness :
    ((clean_pattern ("AT".toList)).length < 3)
    ∧ search_sequences_by_pattern ("AT".toList) "exon" "sequence" 5
        = none :=
  ⟨by decide, ((c8_pattern_validation ("AT".toList) "exon" "sequence" 5).2.1)
    (by decide)⟩

/-! ## Windowed signals -/

/-- The outcome of a sliding-window computation: either the "Sequence too
short for analysis" annotation or the list of `(position, value)` points. -/
inductive SignalResult where
  | insufficient : SignalResult
  | signal : List (ℕ × ℚ) → SignalResult
deriving DecidableEq

/-- Number of elements of Python's `range(0, stop, step)` for positive
`step` (`stop` may be non-positive, giving an empty range). -/
def py_range_len (stop : ℤ) (step : ℕ) : ℕ :=
  if stop ≤ 0 then 0 else (stop.toNat + step - 1) / step

/-- Python's `range(0, stop, step)` for positive `step`. -/
def py_range (stop : ℤ) (step : ℕ) : List ℕ :=
  (List.range (py_range_len stop step)).map (fun k => k * step)

/-- GC percentage of one window: `(window.count("G") + window.count("C"))
/ len(window) * 100`. -/
def gc_percent (w : List Char) : ℚ :=
  ((w.count 'G' + w.count 'C' : ℕ) : ℚ) / (w.length : ℚ) * 100

/-- `DNAVisualizer.plot_gc_content_window` (src/dna_visualization.py:226-294),
restricted to its signal computation: reports insufficiency when the raw
sequence is empty or shorter than the window, then upper-cases and strips
spaces, and slides a window of `window_size` by `window_size // 4`
(`range(0, len(sequence) - window_size + 1, window_size // 4)`), recording
GC% at midpoint positions.  `none` models the `ValueError` Python raises
when the range step `window_size // 4` is zero. -/
def gc_content_window (s : List Char) (window_size : ℕ) : Option SignalResult :=
  if s.isEmpty ∨ s.length < window_size then some SignalResult.insufficient
  else if window_size / 4 = 0 then none
  else some (SignalResult.signal
    ((py_range (((upper_nospace s).length : ℤ) - window_size + 1)
        (window_size / 4)).map
      (fun i => (i + window_size / 2,
        gc_percent (((upper_nospace s).drop i).take window_size)))))

/-- C3: over the DNA alphabet, with a positive default step
`window_size // 4`, the GC window signal has exactly
`(L - W) / step + 1` points, the `k`-th window's value being the GC
percentage of `seq[k*step : k*step + W]`; a sequence shorter than the
window yields the insufficient-length result. -/
theorem c3_gc_content_window (s : List Char) (W : ℕ)
    (hstep : 0 < W / 4) (halpha : ∀ c ∈ s, c ∈ dna_alphabet) :
    (W ≤ s.length →
      ∃ pts, gc_content_window s W = some (SignalResult.signal pts)
        ∧ pts.length = (s.length - W) / (W / 4) + 1
        ∧ ∀ k, (hk : k < pts.length) →
            pts.get ⟨k, hk⟩ = (k * (W / 4) + W / 2,
              gc_percent ((s.drop (k * (W / 4))).take W)))
    ∧ (s.length < W → gc_content_window s W = some SignalResult.insufficient) := by
  constructor
  · intro hWL
    have hW4 : 4 ≤ W := by omega
    have hne : s ≠ [] := by
      intro h
      subst h
      simp at hWL
      omega
    have hemp : s.isEmpty = false := by
      cases s with
      | nil => exact absurd rfl hne
      | cons a l => rfl
    have hsq : upper_nospace s = s := upper_nospace_eq_self s halpha
    have hcond : ¬(s.isEmpty = true ∨ s.length < W) := by
      simp [hemp]
      omega
    have hstep0 : ¬(W / 4 = 0) := by omega
    have hpr : py_range ((s.length : ℤ) - W + 1) (W / 4)
        = (List.range ((s.length - W) / (W / 4) + 1)).map
            (fun k => k * (W / 4)) := by
      unfold py_range py_range_len
      have h1 : ¬((s.length : ℤ) - W + 1 ≤ 0) := by omega
      rw [if_neg h1]
      have h2 : ((s.length : ℤ) - W + 1).toNat = s.length - W + 1 := by omega
      rw [h2]
      have h3 : s.length - W + 1 + W / 4 - 1 = (s.length - W) + W / 4 := by
        omega
      rw [h3, Nat.add_div_right _ hstep]
    refine ⟨(List.range ((s.length - W) / (W / 4) + 1)).map
        (fun k => (k * (W / 4) + W / 2,
          gc_percent ((s.drop (k * (W / 4))).take W))), ?_, ?_, ?_⟩
    · unfold gc_content_window
      rw [if_neg hcond, if_neg hstep0, hsq, hpr, List.map_map]
      rfl
    · simp
    · intro k hk
      simp
  · intro hLW
    unfold gc_content_window
    rw [if_pos (Or.inr hLW)]

/-- Witness for C3 at `"ATGCATGC"` with window 4 (step 1, five windows). -/
theorem c3_gc_content_window_witness :
    0 < 4 / 4 ∧ (∀ c ∈ ("ATGCATGC".toList), c ∈ dna_alphabet)
    ∧ ((4 ≤ ("ATGCATGC".toList).length →
        ∃ pts, gc_content_window ("ATGCATGC".toList) 4
            = some (SignalResult.signal pts)
          ∧ pts.length = (("ATGCATGC".toList).length - 4) / (4 / 4) + 1
          ∧ ∀ k, (hk : k < pts.length) →
              pts.get ⟨k, hk⟩ = (k * (4 / 4) + 4 / 2,
                gc_percent ((("ATGCATGC".toList).drop (k * (4 / 4))).take 4)))
      ∧ (("ATGCATGC".toList).length < 4 →
          gc_content_window ("ATGCATGC".toList) 4
            = some SignalResult.insufficient)) :=
  ⟨by decide, by decide,
    c3_gc_content_window ("ATGCATGC".toList) 4 (by decide) (by decide)⟩

/-! ## Claim C7: hydrophobicity profile -/

/-- The static 20-entry Kyte–Doolittle dict of
`plot_hydrophobicity_profile` (src/dna_visualization.py:505-526). -/
def kd_table : List (Char × ℚ) :=
  [('A', 18/10), ('R', -45/10), ('N', -35/10), ('D', -35/10), ('C', 25/10),
   ('Q', -35/10), ('E', -35/10), ('G', -4/10), ('H', -32/10), ('I', 45/10),
   ('L', 38/10), ('K', -39/10), ('M', 19/10), ('F', 28/10), ('P', -16/10),
   ('S', -8/10), ('T', -7/10), ('W', -9/10), ('Y', -13/10), ('V', 42/10)]

/-- The dict lookup `kyte_doolittle.get(aa, 0)`: unknown residues
contribute 0. -/
def kyte_doolittle (c : Char) : ℚ :=
  ((kd_table.find? (fun p => p.1 = c)).map (fun p => p.2)).getD 0

/-- The protein cleaning `re.sub(r"[^ACDEFGHIKLMNPQRSTVWY]", "",
sequence.upper())` (src/dna_visualization.py:489). -/
def clean_protein (s : List Char) : List Char :=
  (s.map Char.toUpper).filter (fun c => c ∈ protein_residues)

/-- `DNAVisualizer.plot_hydrophobicity_profile`
(src/dna_visualization.py:462-575), restricted to its signal computation:
insufficiency when the raw (then the cleaned) sequence is shorter than the
window, otherwise one window per start index `0 .. len - window_size`, each
value the window's mean Kyte–Doolittle score, positioned at
`i + window_size // 2 + 1`. -/
def hydrophobicity_profile (s : List Char) (window_size : ℕ) : SignalResult :=
  if s.isEmpty ∨ s.length < window_size then SignalResult.insufficient
  else if (clean_protein s).length < window_size then SignalResult.insufficient
  else SignalResult.signal
    ((List.range ((clean_protein s).length - window_size + 1)).map
      (fun i => (i + window_size / 2 + 1,
        ((((clean_protein s).drop i).take window_size).map
          kyte_doolittle).sum / (window_size : ℚ))))

/-- Every Kyte–Doolittle value lies between -4.5 and 4.5. -/
theorem kyte_doolittle_bounds (c : Char) :
    -(9/2 : ℚ) ≤ kyte_doolittle c ∧ kyte_doolittle c ≤ 9/2 := by
  unfold kyte_doolittle
  cases hf : kd_table.find? (fun p => p.1 = c) with
  | none =>
    norm_num
  | some p =>
    have hp : p ∈ kd_table := List.mem_of_find?_eq_some hf
    have hb : ∀ q ∈ kd_table, -(9/2 : ℚ) ≤ q.2 ∧ q.2 ≤ 9/2 := by
      intro q hq
      fin_cases hq <;> norm_num
    simpa using hb p hp

/-- A list of rationals bounded in `[a, b]` has its sum bounded by
`a * length` and `b * length`. -/
theorem sum_bounds (l : List ℚ) (a b : ℚ) (h : ∀ x ∈ l, a ≤ x ∧ x ≤ b) :
    a * l.length ≤ l.sum ∧ l.sum ≤ b * l.length := by
  induction l with
  | nil => simp
  | cons x xs ih =>
    obtain ⟨h1, h2⟩ := ih (fun y hy => h y (List.mem_cons_of_mem x hy))
    obtain ⟨hx1, hx2⟩ := h x (List.mem_cons_self x xs)
    simp only [List.sum_cons, List.length_cons]
    push_cast
    constructor
    · have : a * ((xs.length : ℚ) + 1) = a * xs.length + a := by ring
      rw [this]
      linarith
    · have : b * ((xs.length : ℚ) + 1) = b * xs.length + b := by ring
      rw [this]
      linarith

/-- C7 is falsified on the spec's protein alphabet (20 residues plus the
stop symbol `*`): the cleaning step deletes `*`, so `"RRRRRRRRR*"` (raw
length 10, window 9) yields 1 window instead of `L - W + 1 = 2`, and
`"RRRRRRRR*"` (raw length 9 = W) yields the insufficient-length result
despite `L ≥ W`. -/
theorem c7_hydrophobicity_counterexample :
    ("RRRRRRRRR*".toList).length = 10
    ∧ (∃ pts, hydrophobicity_profile ("RRRRRRRRR*".toList) 9
        = SignalResult.signal pts ∧ pts.length = 1)
    ∧ (1 : ℕ) ≠ ("RRRRRRRRR*".toList).length - 9 + 1
    ∧ 9 ≤ ("RRRRRRRR*".toList).length
    ∧ hydrophobicity_profile ("RRRRRRRR*".toList) 9
        = SignalResult.insufficient := by
  refine ⟨by decide, ?_, by decide, by decide, ?_⟩
  · have hclean : clean_protein ("RRRRRRRRR*".toList)
        = "RRRRRRRRR".toList := by decide
    unfold hydrophobicity_profile
    rw [if_neg (by decide), hclean, if_neg (by decide)]
    refine ⟨_, rfl, ?_⟩
    decide
  · have hclean : clean_protein ("RRRRRRRR*".toList)
        = "RRRRRRRR".toList := by decide
    unfold hydrophobicity_profile
    rw [if_neg (by decide), hclean, if_pos (by decide)]

/-- C7 amended: for every input string and positive window, with `L'` the
length after cleaning (which deletes every character outside the 20
standard residues, `*` included): when both the raw length and `L'` reach
the window size the profile emits exactly `L' - W + 1` windows, every value
within the Kyte–Doolittle bounds `[-4.5, 4.5]`; when the raw length — or,
after cleaning, `L'` — falls short of the window it reports the
insufficient-length result. -/
theorem c7_hydrophobicity_profile_amended (s : List Char) (W : ℕ)
    (hW : 0 < W) :
    (W ≤ s.length → W ≤ (clean_protein s).length →
      ∃ pts, hydrophobicity_profile s W = SignalResult.signal pts
        ∧ pts.length = (clean_protein s).length - W + 1
        ∧ ∀ p ∈ pts, -(9/2 : ℚ) ≤ p.2 ∧ p.2 ≤ 9/2)
    ∧ (s.length < W → hydrophobicity_profile s W = SignalResult.insufficient)
    ∧ ((clean_protein s).length < W →
        hydrophobicity_profile s W = SignalResult.insufficient) := by
  have hguard : W ≤ s.length → ¬(s.isEmpty = true ∨ s.length < W) := by
    intro hWL
    have hne : s ≠ [] := by
      intro h
      subst h
      simp at hWL
      omega
    have hemp : s.isEmpty = false := by
      cases s with
      | nil => exact absurd rfl hne
      | cons a l => rfl
    simp [hemp]
    omega
  refine ⟨?_, ?_, ?_⟩
  · intro hWL hWC
    refine ⟨(List.range ((clean_protein s).length - W + 1)).map
        (fun i => (i + W / 2 + 1,
          ((((clean_protein s).drop i).take W).map
            kyte_doolittle).sum / (W : ℚ))), ?_, ?_, ?_⟩
    · unfold hydrophobicity_profile
      rw [if_neg (hguard hWL), if_neg (by omega)]
    · simp
    · intro p hp
      rcases List.mem_map.mp hp with ⟨i, hi, hip⟩
      have hiL : i ≤ (clean_protein s).length - W := by
        have := List.mem_range.mp hi
        omega
      have hbound := sum_bounds ((((clean_protein s).drop i).take W).map
        kyte_doolittle) (-(9/2)) (9/2) ?_
      · have hlen : ((((clean_protein s).drop i).take W).map
            kyte_doolittle).length = W := by
          simp
          omega
        rw [hlen] at hbound
        have hWQ : (0 : ℚ) < (W : ℚ) := by exact_mod_cast hW
        have hv : p.2 = ((((clean_protein s).drop i).take W).map
            kyte_doolittle).sum / (W : ℚ) := by
          rw [← hip]
        rw [hv]
        constructor
        · rw [le_div_iff₀ hWQ]
          linarith [hbound.1]
        · rw [div_le_iff₀ hWQ]
          linarith [hbound.2]
      · intro x hx
        rcases List.mem_map.mp hx with ⟨c, _, hcx⟩
        rw [← hcx]
        exact kyte_doolittle_bounds c
  · intro hLW
    unfold hydrophobicity_profile
    rw [if_pos (Or.inr hLW)]
  · intro hclt
    by_cases hraw : s.length < W
    · unfold hydrophobicity_profile
      rw [if_pos (Or.inr hraw)]
    · unfold hydrophobicity_profile
      rw [if_neg (hguard (by omega)), if_pos hclt]

/-- Witness for the amended C7 at `"ACDEFGHIK*"` (raw length 10, cleaned
length 9) with window 9. -/
theorem c7_hydrophobicity_profile_amended_witness :
    0 < 9
    ∧ ((9 ≤ ("ACDEFGHIK*".toList).length →
        9 ≤ (clean_protein ("ACDEFGHIK*".toList)).length →
        ∃ pts, hydrophobicity_profile ("ACDEFGHIK*".toList) 9
            = SignalResult.signal pts
          ∧ pts.length = (clean_protein ("ACDEFGHIK*".toList)).length - 9 + 1
          ∧ ∀ p ∈ pts, -(9/2 : ℚ) ≤ p.2 ∧ p.2 ≤ 9/2)
      ∧ (("ACDEFGHIK*".toList).length < 9 →
          hydrophobicity_profile ("ACDEFGHIK*".toList) 9
            = SignalResult.insufficient)
      ∧ ((clean_protein ("ACDEFGHIK*".toList)).length < 9 →
          hydrophobicity_profile ("ACDEFGHIK*".toList) 9
            = SignalResult.insufficient)) :=
  ⟨by decide,
    c7_hydrophobicity_profile_amended ("ACDEFGHIK*".toList) 9 (by decide)⟩

/-! ## Claim C4: double-helix geometry

`plot_dna_double_helix` (src/dna_visualization.py:744-756) computes
`t = np.linspace(0, 4 * np.pi * n_bases / 10, n_bases)`,
`x1 = cos(t)`, `y1 = sin(t)`, `z1 = np.linspace(0, n_bases * 0.34,
n_bases)`, and strand 2 as `(-x1, -y1, z1)`.  Angles are represented by
their exact rational coefficient of π. -/

/-- numpy's `np.linspace(0, stop, num)` over exact rationals: `num` evenly
spaced samples from `0` to `stop` inclusive (spacing `stop / (num - 1)`);
`num = 1` gives just the start point, `num = 0` nothing. -/
def linspace (stop : ℚ) (num : ℕ) : List ℚ :=
  if num = 0 then []
  else if num = 1 then [0]
  else (List.range num).map (fun (i : ℕ) => stop * (i : ℚ) / ((num : ℚ) - 1))

/-- Coefficients of π in `t = np.linspace(0, 4 * np.pi * n_bases / 10,
n_bases)`. -/
def helix_t_coeff (n : ℕ) : List ℚ := linspace (4 * n / 10) n

/-- `z1 = np.linspace(0, n_bases * 0.34, n_bases)` (0.34 per base pair). -/
def helix_z (n : ℕ) : List ℚ := linspace (n * (34/100)) n

/-- Strand 1 of the helix: points `(cos t[i], sin t[i], z1[i])`. -/
noncomputable def helix_strand1 (n : ℕ) : List (ℝ × ℝ × ℝ) :=
  (List.range n).map (fun i =>
    (Real.cos (Real.pi * ((helix_t_coeff n).getD i 0 : ℝ)),
     Real.sin (Real.pi * ((helix_t_coeff n).getD i 0 : ℝ)),
     ((helix_z n).getD i 0 : ℝ)))

/-- Strand 2 of the helix: points `(-cos t[i], -sin t[i], z1[i])`. -/
noncomputable def helix_strand2 (n : ℕ) : List (ℝ × ℝ × ℝ) :=
  (List.range n).map (fun i =>
    (-Real.cos (Real.pi * ((helix_t_coeff n).getD i 0 : ℝ)),
     -Real.sin (Real.pi * ((helix_t_coeff n).getD i 0 : ℝ)),
     ((helix_z n).getD i 0 : ℝ)))

/-- Element extraction from a mapped range. -/
theorem getD_map_range {α : Type} (n i : ℕ) (hi : i < n) (f : ℕ → α)
    (d : α) : ((List.range n).map f).getD i d = f i := by
  rw [List.getD_eq_getElem?_getD]
  simp [List.getElem?_map, List.getElem?_range, hi]

/-- C4 is falsified at the two-base input `"AT"`: the claim predicts the
strand-1 `z`-coordinate `1 * 0.34` at position 1, but `np.linspace` spaces
`n` samples by `stop / (n - 1)`, so the code produces `z = 0.68` there. -/
theorem c4_helix_counterexample :
    (helix_sequence ("AT".toList) 50).length = 2
    ∧ (helix_z 2).getD 1 0 = 68/100
    ∧ ((helix_strand1 2).getD 1 (0, 0, 0)).2.2 = ((68/100 : ℚ) : ℝ)
    ∧ ((68/100 : ℚ) : ℝ) ≠ ((1 : ℕ) : ℝ) * (34/100) := by
  have hz : (helix_z 2).getD 1 0 = 68/100 := by
    unfold helix_z linspace
    rw [if_neg (by norm_num), if_neg (by norm_num),
      getD_map_range 2 1 (by omega)]
    norm_num
  refine ⟨by decide, hz, ?_, by norm_num⟩
  unfold helix_strand1
  rw [getD_map_range 2 1 (by omega), hz]

/-- C4 amended: `n = min(cleaned length, max_length)` positions; both
strands have exactly `n` points; for `n ≥ 2` the position-`i` angle is
`t_i = π · (4n/10) · i / (n-1)` (not `i · 4πn/(10n)`), the rise is
`z_i = 0.34 · n · i / (n-1)` (not `i · 0.34`), strand 1's point `i` is
`(cos t_i, sin t_i, z_i)` and strand 2's is `(-cos t_i, -sin t_i, z_i)`. -/
theorem c4_helix_geometry (n i : ℕ) (s : List Char) (max_length : ℕ)
    (hn : 2 ≤ n) (hi : i < n) :
    (helix_sequence s max_length).length = min (clean_dna s).length max_length
    ∧ (helix_strand1 n).length = n
    ∧ (helix_strand2 n).length = n
    ∧ (helix_t_coeff n).getD i 0 = 4 * (n : ℚ) / 10 * (i : ℚ) / ((n : ℚ) - 1)
    ∧ (helix_z n).getD i 0 = (n : ℚ) * (34/100) * (i : ℚ) / ((n : ℚ) - 1)
    ∧ (helix_strand1 n).getD i (0, 0, 0)
        = (Real.cos (Real.pi
              * ((4 * (n : ℚ) / 10 * (i : ℚ) / ((n : ℚ) - 1) : ℚ) : ℝ)),
           Real.sin (Real.pi
              * ((4 * (n : ℚ) / 10 * (i : ℚ) / ((n : ℚ) - 1) : ℚ) : ℝ)),
           (((n : ℚ) * (34/100) * (i : ℚ) / ((n : ℚ) - 1) : ℚ) : ℝ))
    ∧ (helix_strand2 n).getD i (0, 0, 0)
        = (-Real.cos (Real.pi
              * ((4 * (n : ℚ) / 10 * (i : ℚ) / ((n : ℚ) - 1) : ℚ) : ℝ)),
           -Real.sin (Real.pi
              * ((4 * (n : ℚ) / 10 * (i : ℚ) / ((n : ℚ) - 1) : ℚ) : ℝ)),
           (((n : ℚ) * (34/100) * (i : ℚ) / ((n : ℚ) - 1) : ℚ) : ℝ)) := by
  have h0 : ¬(n = 0) := by omega
  have h1 : ¬(n = 1) := by omega
  have ht : (helix_t_coeff n).getD i 0
      = 4 * (n : ℚ) / 10 * (i : ℚ) / ((n : ℚ) - 1) := by
    unfold helix_t_coeff linspace
    rw [if_neg h0, if_neg h1, getD_map_range n i hi]
  have hz : (helix_z n).getD i 0
      = (n : ℚ) * (34/100) * (i : ℚ) / ((n : ℚ) - 1) := by
    unfold helix_z linspace
    rw [if_neg h0, if_neg h1, getD_map_range n i hi]
  refine ⟨?_, by simp [helix_strand1], by simp [helix_strand2], ht, hz,
    ?_, ?_⟩
  · simp [helix_sequence, Nat.min_comm]
  · unfold helix_strand1
    rw [getD_map_range n i hi, ht, hz]
  · unfold helix_strand2
    rw [getD_map_range n i hi, ht, hz]

/-- Witness for the amended C4 at `n = 2`, `i = 1`, input `"AT"`. -/
theorem c4_helix_geometry_witness :
    2 ≤ 2 ∧ 1 < 2
    ∧ ((helix_sequence ("AT".toList) 50).length
          = min (clean_dna ("AT".toList)).length 50
      ∧ (helix_strand1 2).length = 2
      ∧ (helix_strand2 2).length = 2
      ∧ (helix_t_coeff 2).getD 1 0
          = 4 * ((2 : ℕ) : ℚ) / 10 * ((1 : ℕ) : ℚ) / (((2 : ℕ) : ℚ) - 1)
      ∧ (helix_z 2).getD 1 0
          = ((2 : ℕ) : ℚ) * (34/100) * ((1 : ℕ) : ℚ) / (((2 : ℕ) : ℚ) - 1)
      ∧ (helix_strand1 2).getD 1 (0, 0, 0)
          = (Real.cos (Real.pi * ((4 * ((2 : ℕ) : ℚ) / 10 * ((1 : ℕ) : ℚ)
                / (((2 : ℕ) : ℚ) - 1) : ℚ) : ℝ)),
             Real.sin (Real.pi * ((4 * ((2 : ℕ) : ℚ) / 10 * ((1 : ℕ) : ℚ)
                / (((2 : ℕ) : ℚ) - 1) : ℚ) : ℝ)),
             ((((2 : ℕ) : ℚ) * (34/100) * ((1 : ℕ) : ℚ)
                / (((2 : ℕ) : ℚ) - 1) : ℚ) : ℝ))
      ∧ (helix_strand2 2).getD 1 (0, 0, 0)
          = (-Real.cos (Real.pi * ((4 * ((2 : ℕ) : ℚ) / 10 * ((1 : ℕ) : ℚ)
                / (((2 : ℕ) : ℚ) - 1) : ℚ) : ℝ)),
             -Real.sin (Real.pi * ((4 * ((2 : ℕ) : ℚ) / 10 * ((1 : ℕ) : ℚ)
                / (((2 : ℕ) : ℚ) - 1) : ℚ) : ℝ)),
             ((((2 : ℕ) : ℚ) * (34/100) * ((1 : ℕ) : ℚ)
                / (((2 : ℕ) : ℚ) - 1) : ℚ) : ℝ))) :=
  ⟨by decide, by decide, c4_helix_geometry 2 1 ("AT".toList) 50 (by decide)
    (by decide)⟩

/-! ## Claim C5: sequence-logo position-weight matrix

`plot_sequence_logo` (src/dna_visualization.py:158-224): per column `pos`
of the first sequence's length, collects `[seq[pos].upper() for seq in
sequences if pos < len(seq)]`, and for each of the four rows `A,T,G,C`
stores `count / total` where `total` is the number of contributing
sequences. -/

/-- `pos_nucleotides = [seq[pos].upper() for seq in sequences if pos <
len(seq)]`. -/
def pos_nucleotides (seqs : List (List Char)) (pos : ℕ) : List Char :=
  (seqs.filter (fun sq => pos < sq.length)).map
    (fun sq => (sq.getD pos ' ').toUpper)

/-- One cell of the heatmap: `pos_count.get(nucleotide, 0) / total if
total > 0 else 0`. -/
def column_freq (seqs : List (List Char)) (pos : ℕ) (nuc : Char) : ℚ :=
  if 0 < (pos_nucleotides seqs pos).length then
    ((pos_nucleotides seqs pos).count nuc : ℚ)
      / ((pos_nucleotides seqs pos).length : ℚ)
  else 0

/-- The heatmap matrix: one row per nucleotide of `A,T,G,C`, one column per
position of the first sequence. -/
def heatmap_data (seqs : List (List Char)) : List (List ℚ) :=
  ['A', 'T', 'G', 'C'].map (fun nuc =>
    (List.range (seqs.headD []).length).map (fun pos => column_freq seqs pos nuc))

/-- `plot_sequence_logo`'s guard and matrix: `none` models the "No sequence
data available" figure returned when the input list or its first sequence
is empty. -/
def plot_sequence_logo (seqs : List (List Char)) : Option (List (List ℚ)) :=
  if seqs.isEmpty ∨ (seqs.headD []).isEmpty then none
  else some (heatmap_data seqs)

/-- C5 is falsified at `[["A"], ["N"]]`: column 0 is covered by both
sequences, yet the frequencies of the matrix's rows sum to 1/2, because the
`N` occurrence is counted in the divisor but has no matrix row. -/
theorem c5_pwm_counterexample :
    plot_sequence_logo [['A'], ['N']] = some [[(1 : ℚ)/2], [0], [0], [0]]
    ∧ column_freq [['A'], ['N']] 0 'A' + column_freq [['A'], ['N']] 0 'T'
        + column_freq [['A'], ['N']] 0 'G'
        + column_freq [['A'], ['N']] 0 'C' ≠ 1
    ∧ ([['A'], ['N']] : List (List Char)) ≠ []
    ∧ ([['A'], ['N']].headD ([] : List Char)) ≠ [] := by
  have hpn : pos_nucleotides [['A'], ['N']] 0 = ['A', 'N'] := by decide
  have hcA : ['A', 'N'].count 'A' = 1 := by decide
  have hcT : ['A', 'N'].count 'T' = 0 := by decide
  have hcG : ['A', 'N'].count 'G' = 0 := by decide
  have hcC : ['A', 'N'].count 'C' = 0 := by decide
  have hA : column_freq [['A'], ['N']] 0 'A' = 1/2 := by
    unfold column_freq
    rw [hpn, hcA]
    norm_num
  have hT : column_freq [['A'], ['N']] 0 'T' = 0 := by
    unfold column_freq
    rw [hpn, hcT]
    norm_num
  have hG : column_freq [['A'], ['N']] 0 'G' = 0 := by
    unfold column_freq
    rw [hpn, hcG]
    norm_num
  have hC : column_freq [['A'], ['N']] 0 'C' = 0 := by
    unfold column_freq
    rw [hpn, hcC]
    norm_num
  refine ⟨?_, ?_, by decide, by decide⟩
  · unfold plot_sequence_logo
    rw [if_neg (by decide)]
    have hm : heatmap_data [['A'], ['N']] = [[(1 : ℚ)/2], [0], [0], [0]] := by
      unfold heatmap_data
      rw [show (([['A'], ['N']] : List (List Char)).headD []).length = 1
        from by decide]
      rw [show List.range 1 = [0] from by decide]
      simp only [List.map_cons, List.map_nil]
      rw [hA, hT, hG, hC]
    rw [hm]
  · rw [hA, hT, hG, hC]
    norm_num

/-- C5 amended: for a non-empty list of base-only (`A,T,G,C`) sequences
whose first sequence is non-empty, the matrix has 4 rows of exactly the
first sequence's length, and every column's four frequencies sum to exactly
1 — the zero-coverage case cannot occur because every column index lies
within the first sequence, which always contributes. -/
theorem c5_pwm_column_sums (seqs : List (List Char)) (h1 : seqs ≠ [])
    (h2 : seqs.headD [] ≠ [])
    (hab : ∀ sq ∈ seqs, ∀ c ∈ sq, c ∈ dna_bases) :
    plot_sequence_logo seqs = some (heatmap_data seqs)
    ∧ (heatmap_data seqs).length = 4
    ∧ (∀ row ∈ heatmap_data seqs, row.length = (seqs.headD []).length)
    ∧ ∀ pos, pos < (seqs.headD []).length →
        column_freq seqs pos 'A' + column_freq seqs pos 'T'
          + column_freq seqs pos 'G' + column_freq seqs pos 'C' = 1 := by
  have hemp : seqs.isEmpty = false := by
    cases seqs with
    | nil => exact absurd rfl h1
    | cons a l => rfl
  have hemp2 : (seqs.headD []).isEmpty = false := by
    cases hh : seqs.headD [] with
    | nil => exact absurd hh h2
    | cons a l => rfl
  refine ⟨?_, by simp [heatmap_data], ?_, ?_⟩
  · unfold plot_sequence_logo
    have hcond : ¬(seqs.isEmpty = true ∨ (seqs.headD []).isEmpty = true) := by
      intro hor
      rcases hor with h | h
      · rw [hemp] at h
        exact Bool.noConfusion h
      · rw [hemp2] at h
        exact Bool.noConfusion h
    rw [if_neg hcond]
  · intro row hrow
    rcases List.mem_map.mp hrow with ⟨nuc, _, hrw⟩
    rw [← hrw]
    simp
  · intro pos hpos
    have hhead : seqs.headD [] ∈ seqs := by
      cases seqs with
      | nil => exact absurd rfl h1
      | cons a l => exact List.mem_cons_self a l
    have hhf : seqs.headD [] ∈ seqs.filter (fun sq => pos < sq.length) :=
      List.mem_filter.mpr ⟨hhead, by simpa using hpos⟩
    have hTpos : 0 < (pos_nucleotides seqs pos).length := by
      unfold pos_nucleotides
      rw [List.length_map]
      exact List.length_pos.mpr (List.ne_nil_of_mem hhf)
    have hcov : ∀ c ∈ pos_nucleotides seqs pos, c ∈ dna_bases := by
      intro c hc
      rcases List.mem_map.mp hc with ⟨sq, hsq, hcq⟩
      rcases List.mem_filter.mp hsq with ⟨hsqm, hlt⟩
      have hlt' : pos < sq.length := by simpa using hlt
      have hget : sq.getD pos ' ' = sq[pos] := List.getD_eq_getElem sq ' ' hlt'
      have hmem : sq[pos] ∈ sq := List.getElem_mem hlt'
      have hbase : sq[pos] ∈ dna_bases := hab sq hsqm _ hmem
      have hfix : (sq[pos]).toUpper = sq[pos] := by
        have h4 : sq[pos] = 'A' ∨ sq[pos] = 'T' ∨ sq[pos] = 'G'
            ∨ sq[pos] = 'C' := by simpa [dna_bases] using hbase
        rcases h4 with h | h | h | h <;> rw [h] <;> decide
      rw [← hcq, hget, hfix]
      exact hbase
    have hsum : (pos_nucleotides seqs pos).count 'A'
        + (pos_nucleotides seqs pos).count 'T'
        + (pos_nucleotides seqs pos).count 'G'
        + (pos_nucleotides seqs pos).count 'C'
        = (pos_nucleotides seqs pos).length := by
      have h := sum_count_of_cover (pos_nucleotides seqs pos) dna_bases
        (by decide) hcov
      simp [dna_bases] at h
      omega
    have hq : (((pos_nucleotides seqs pos).count 'A' : ℚ)
        + (pos_nucleotides seqs pos).count 'T'
        + (pos_nucleotides seqs pos).count 'G'
        + (pos_nucleotides seqs pos).count 'C')
        = ((pos_nucleotides seqs pos).length : ℚ) := by exact_mod_cast hsum
    have hL : (((pos_nucleotides seqs pos).length : ℚ)) ≠ 0 := by
      exact_mod_cast Nat.pos_iff_ne_zero.mp hTpos
    simp only [column_freq, if_pos hTpos]
    field_simp
    linarith [hq]

/-- Witness for the amended C5 at `[["AT"], ["GC"]]`-style input
`[['A','T'], ['G','C']]`. -/
theorem c5_pwm_column_sums_witness :
    ([['A', 'T'], ['G', 'C']] : List (List Char)) ≠ []
    ∧ ([['A', 'T'], ['G', 'C']].headD ([] : List Char)) ≠ []
    ∧ (∀ sq ∈ ([['A', 'T'], ['G', 'C']] : List (List Char)),
        ∀ c ∈ sq, c ∈ dna_bases)
    ∧ (plot_sequence_logo [['A', 'T'], ['G', 'C']]
        = some (heatmap_data [['A', 'T'], ['G', 'C']])
      ∧ (heatmap_data [['A', 'T'], ['G', 'C']]).length = 4
      ∧ (∀ row ∈ heatmap_data [['A', 'T'], ['G', 'C']],
          row.length = ([['A', 'T'], ['G', 'C']].headD ([] : List Char)).length)
      ∧ ∀ pos, pos < ([['A', 'T'], ['G', 'C']].headD ([] : List Char)).length →
          column_freq [['A', 'T'], ['G', 'C']] pos 'A'
            + column_freq [['A', 'T'], ['G', 'C']] pos 'T'
            + column_freq [['A', 'T'], ['G', 'C']] pos 'G'
            + column_freq [['A', 'T'], ['G', 'C']] pos 'C' = 1) :=
  ⟨by decide, by decide, by decide,
    c5_pwm_column_sums [['A', 'T'], ['G', 'C']] (by decide) (by decide)
      (by decide)⟩

/-! ## Claim C6: the sequence-source locator
(`BiocatDatabase.check_dna_sequence_availability`,
src/database.py:355-443)

The relational store is modelled as a list of tables, each a named list of
columns, each a named list of nullable string cells.  A probe of a missing
table or column is `none`, modelling the query error that the code
silently skips. -/

structure ColumnData where
  name : String
  rows : List (Option String)
deriving DecidableEq

structure DBTable where
  name : String
  cols : List ColumnData
deriving DecidableEq

/-- A database schema state. -/
abbrev Schema := List DBTable

def find_table (db : Schema) (t : String) : Option DBTable :=
  db.find? (fun tb => tb.name = t)

def find_column (tb : DBTable) (c : String) : Option ColumnData :=
  tb.cols.find? (fun cd => cd.name = c)

/-- `COUNT(col) ... WHERE col IS NOT NULL AND col != ''`. -/
def nonempty_count (cd : ColumnData) : ℕ :=
  (cd.rows.filter (fun r => match r with
    | some v => v ≠ ""
    | none => false)).length

/-- `ROUND(AVG(LENGTH(col)), 0)` over the same filtered rows (`NULL` when
no row matches). -/
def avg_length (cd : ColumnData) : Option ℤ :=
  let vals := cd.rows.filterMap (fun r => match r with
    | none => none
    | some v => if v = "" then none else some v.length)
  if vals.length = 0 then none
  else some (round ((vals.sum : ℚ) / (vals.length : ℚ)))

/-- One availability probe (src/database.py:380-389): `none` when the table
or column does not exist (the query errors), otherwise the non-empty row
count and rounded average length. -/
def probe (db : Schema) (t c : String) : Option (ℕ × Option ℤ) :=
  match find_table db t with
  | none => none
  | some tb =>
    match find_column tb c with
    | none => none
    | some cd => some (nonempty_count cd, avg_length cd)

/-- The probed non-empty row count alone. -/
def probe_count (db : Schema) (t c : String) : Option ℕ :=
  (probe db t c).map (fun p => p.1)

structure SourceDescriptor where
  description : String
  table : String
  column : String
  sequence_count : ℕ
  avg_length : Option ℤ
deriving DecidableEq

/-- The hard-coded candidate list `sequence_checks`
(src/database.py:369-377). -/
def sequence_checks : List (String × String × String) :=
  [("chromosome", "sequence", "Chromosome sequences"),
   ("gene", "dna_sequence", "Gene DNA sequences"),
   ("transcript", "cdna_sequence", "cDNA sequences"),
   ("transcript", "dna_sequence", "Transcript DNA sequences"),
   ("protein", "protein_sequence", "Protein sequences (amino acids)"),
   ("exon", "sequence", "Exon sequences"),
   ("intron", "sequence", "Intron sequences")]

/-- First pass over the fixed candidate list (src/database.py:379-402):
a failing probe is skipped, a positive count appends a descriptor keyed
`table.column`. -/
def phase1 (db : Schema) :
    List (String × String × String) → List (String × SourceDescriptor)
      → List (String × SourceDescriptor)
  | [], acc => acc
  | (t, c, d) :: rest, acc =>
    phase1 db rest (match probe db t c with
      | none => acc
      | some (cnt, av) =>
        if 0 < cnt then
          acc ++ [(t ++ "." ++ c, ⟨d, t, c, cnt, av⟩)]
        else acc)

/-- Python's `str.lower()`. -/
def lower_str (s : String) : String := String.mk (s.toList.map Char.toLower)

/-- Python's `str.title()` for a single word. -/
def py_title (s : String) : String :=
  match s.toList with
  | [] => ""
  | c :: rest => String.mk (c.toUpper :: rest.map Char.toLower)

/-- Python's substring test `sub in s`. -/
def str_contains (sub s : String) : Bool :=
  (List.range (s.toList.length + 1)).any
    (fun i => sub.toList.isPrefixOf (s.toList.drop i))

/-- `"seq" in col_name or "dna" in col_name or "rna" in col_name`. -/
def is_seqlike (cn : String) : Bool :=
  str_contains "seq" cn || str_contains "dna" cn || str_contains "rna" cn

/-- Second pass over one table's `DESCRIBE` output
(src/database.py:416-436): a sequence-like column name (lower-cased) that
does not already occur among the emitted descriptors' column names is
probed; positive counts append a descriptor with no average length. -/
def phase2_cols (db : Schema) (t : String) :
    List ColumnData → List (String × SourceDescriptor)
      → List (String × SourceDescriptor)
  | [], acc => acc
  | cd :: rest, acc =>
    phase2_cols db t rest
      (if is_seqlike (lower_str cd.name)
          && !((acc.map (fun p => p.2.column)).contains (lower_str cd.name))
        then
          match probe db t cd.name with
          | none => acc
          | some (cnt, _) =>
            if 0 < cnt then
              acc ++ [(t ++ "." ++ cd.name,
                ⟨py_title t ++ " " ++ cd.name, t, cd.name, cnt, none⟩)]
            else acc
        else acc)

/-- The six tables scanned in the second pass (src/database.py:405-412). -/
def scan_tables : List String :=
  ["chromosome", "gene", "transcript", "protein", "exon", "intron"]

/-- Second pass over all scanned tables: a missing table (failed
`DESCRIBE`) is skipped. -/
def phase2 (db : Schema) :
    List String → List (String × SourceDescriptor)
      → List (String × SourceDescriptor)
  | [], acc => acc
  | t :: rest, acc =>
    phase2 db rest (match find_table db t with
      | none => acc
      | some tb => phase2_cols db t tb.cols acc)

/-- `check_dna_sequence_availability`: the keyed descriptor list together
with `total_sources = len(results)`. -/
def check_dna_sequence_availability (db : Schema) :
    List (String × SourceDescriptor) × ℕ :=
  let r := phase2 db scan_tables (phase1 db sequence_checks [])
  (r, r.length)

/-- `phase1` only ever appends. -/
theorem phase1_mono (db : Schema) :
    ∀ (checks : List (String × String × String))
      (acc : List (String × SourceDescriptor)) (x), x ∈ acc
      → x ∈ phase1 db checks acc := by
  intro checks
  induction checks with
  | nil =>
    intro acc x hx
    simpa [phase1] using hx
  | cons hd rest ih =>
    obtain ⟨t, c, d⟩ := hd
    intro acc x hx
    simp only [phase1]
    apply ih
    cases hp : probe db t c with
    | none => simpa [hp] using hx
    | some pr =>
      obtain ⟨cnt, av⟩ := pr
      by_cases hc : 0 < cnt
      · simp [hp, hc]
        left
        exact hx
      · simpa [hp, hc] using hx

/-- `phase2_cols` only ever appends. -/
theorem phase2_cols_mono (db : Schema) (t : String) :
    ∀ (cols : List ColumnData) (acc : List (String × SourceDescriptor)) (x),
      x ∈ acc → x ∈ phase2_cols db t cols acc := by
  intro cols
  induction cols with
  | nil =>
    intro acc x hx
    simpa [phase2_cols] using hx
  | cons cd rest ih =>
    intro acc x hx
    simp only [phase2_cols]
    apply ih
    by_cases hs : (is_seqlike (lower_str cd.name)
        && !((acc.map (fun p => p.2.column)).contains (lower_str cd.name)))
          = true
    · rw [if_pos hs]
      cases hp : probe db t cd.name with
      | none =>
        simp only [hp]
        exact hx
      | some pr =>
        obtain ⟨cnt, av⟩ := pr
        simp only [hp]
        by_cases hc : 0 < cnt
        · rw [if_pos hc]
          exact List.mem_append_left _ hx
        · rw [if_neg hc]
          exact hx
    · rw [if_neg hs]
      exact hx

/-- `phase2` only ever appends. -/
theorem phase2_mono (db : Schema) :
    ∀ (ts : List String) (acc : List (String × SourceDescriptor)) (x),
      x ∈ acc → x ∈ phase2 db ts acc := by
  intro ts
  induction ts with
  | nil =>
    intro acc x hx
    simpa [phase2] using hx
  | cons t rest ih =>
    intro acc x hx
    simp only [phase2]
    apply ih
    cases hf : find_table db t with
    | none => simpa [hf] using hx
    | some tb =>
      simp only [hf]
      exact phase2_cols_mono db t tb.cols acc x hx

/-- Every descriptor accumulated by `phase1` carries the probed non-empty
row count of its own table/column, and that count is positive. -/
theorem phase1_sound (db : Schema) :
    ∀ (checks : List (String × String × String)) (acc),
      (∀ p ∈ acc, probe_count db p.2.table p.2.column
          = some p.2.sequence_count ∧ 0 < p.2.sequence_count) →
      ∀ p ∈ phase1 db checks acc,
        probe_count db p.2.table p.2.column = some p.2.sequence_count
          ∧ 0 < p.2.sequence_count := by
  intro checks
  induction checks with
  | nil =>
    intro acc hacc p hp
    simp only [phase1] at hp
    exact hacc p hp
  | cons hd rest ih =>
    obtain ⟨t, c, d⟩ := hd
    intro acc hacc p hp
    simp only [phase1] at hp
    refine ih _ ?_ p hp
    cases hpc : probe db t c with
    | none =>
      simp only [hpc]
      exact hacc
    | some pr =>
      obtain ⟨cnt, av⟩ := pr
      simp only [hpc]
      by_cases hc : 0 < cnt
      · rw [if_pos hc]
        intro q hq
        rcases List.mem_append.mp hq with hq | hq
        · exact hacc q hq
        · have hq' : q = (t ++ "." ++ c,
              (⟨d, t, c, cnt, av⟩ : SourceDescriptor)) := by
            simpa using hq
          subst hq'
          constructor
          · unfold probe_count
            rw [hpc]
            rfl
          · exact hc
      · rw [if_neg hc]
        exact hacc

/-- Every descriptor accumulated by `phase2_cols` carries its own probed
positive count. -/
theorem phase2_cols_sound (db : Schema) (t : String) :
    ∀ (cols : List ColumnData) (acc),
      (∀ p ∈ acc, probe_count db p.2.table p.2.column
          = some p.2.sequence_count ∧ 0 < p.2.sequence_count) →
      ∀ p ∈ phase2_cols db t cols acc,
        probe_count db p.2.table p.2.column = some p.2.sequence_count
          ∧ 0 < p.2.sequence_count := by
  intro cols
  induction cols with
  | nil =>
    intro acc hacc p hp
    simp only [phase2_cols] at hp
    exact hacc p hp
  | cons cd rest ih =>
    intro acc hacc p hp
    simp only [phase2_cols] at hp
    refine ih _ ?_ p hp
    by_cases hs : (is_seqlike (lower_str cd.name)
        && !((acc.map (fun q => q.2.column)).contains (lower_str cd.name)))
          = true
    · rw [if_pos hs]
      cases hpc : probe db t cd.name with
      | none =>
        simp only [hpc]
        exact hacc
      | some pr =>
        obtain ⟨cnt, av⟩ := pr
        simp only [hpc]
        by_cases hc : 0 < cnt
        · rw [if_pos hc]
          intro q hq
          rcases List.mem_append.mp hq with hq | hq
          · exact hacc q hq
          · have hq' : q = (t ++ "." ++ cd.name,
                (⟨py_title t ++ " " ++ cd.name, t, cd.name, cnt, none⟩
                  : SourceDescriptor)) := by
              simpa using hq
            subst hq'
            constructor
            · unfold probe_count
              rw [hpc]
              rfl
            · exact hc
        · rw [if_neg hc]
          exact hacc
    · rw [if_neg hs]
      exact hacc

/-- Every descriptor accumulated by `phase2` carries its own probed
positive count. -/
theorem phase2_sound (db : Schema) :
    ∀ (ts : List String) (acc),
      (∀ p ∈ acc, probe_count db p.2.table p.2.column
          = some p.2.sequence_count ∧ 0 < p.2.sequence_count) →
      ∀ p ∈ phase2 db ts acc,
        probe_count db p.2.table p.2.column = some p.2.sequence_count
          ∧ 0 < p.2.sequence_count := by
  intro ts
  induction ts with
  | nil =>
    intro acc hacc p hp
    simp only [phase2] at hp
    exact hacc p hp
  | cons t rest ih =>
    intro acc hacc p hp
    simp only [phase2] at hp
    refine ih _ ?_ p hp
    cases hf : find_table db t with
    | none =>
      simp only [hf]
      exact hacc
    | some tb =>
      simp only [hf]
      exact phase2_cols_sound db t tb.cols acc hacc

/-- A fixed-list candidate whose probe reports data always ends up in the
`phase1` accumulator. -/
theorem phase1_adds (db : Schema) :
    ∀ (checks : List (String × String × String)) (acc) (t c d : String),
      (t, c, d) ∈ checks →
      ∀ n, probe_count db t c = some n → 0 < n →
      ∃ sd, (t ++ "." ++ c, sd) ∈ phase1 db checks acc := by
  intro checks
  induction checks with
  | nil =>
    intro acc t c d h
    cases h
  | cons hd rest ih =>
    obtain ⟨t', c', d'⟩ := hd
    intro acc t c d hmem n hp hn
    rcases List.mem_cons.mp hmem with heq | hrest
    · obtain ⟨ht, hc, hd2⟩ : t = t' ∧ c = c' ∧ d = d' := by
        simpa [Prod.ext_iff] using heq
      subst ht
      subst hc
      have hav : ∃ av, probe db t c = some (n, av) := by
        unfold probe_count at hp
        cases hq : probe db t c with
        | none =>
          rw [hq] at hp
          cases hp
        | some pr =>
          obtain ⟨cnt, av⟩ := pr
          rw [hq] at hp
          simp at hp
          exact ⟨av, by rw [hp]⟩
      obtain ⟨av, hav⟩ := hav
      refine ⟨⟨d', t, c, n, av⟩, ?_⟩
      simp only [phase1]
      apply phase1_mono
      simp only [hav]
      rw [if_pos hn]
      exact List.mem_append_right _ (by simp)
    · exact ih _ t c d hrest n hp hn

/-- A schema where only `gene.dna_sequence` holds non-null data. -/
def gene_only_schema : Schema :=
  [⟨"chromosome", [⟨"sequence", [none]⟩]⟩,
   ⟨"gene", [⟨"dna_sequence", [some "ATGC"]⟩]⟩,
   ⟨"transcript", [⟨"cdna_sequence", [none]⟩, ⟨"dna_sequence", [none]⟩]⟩,
   ⟨"protein", [⟨"protein_sequence", [none]⟩]⟩,
   ⟨"exon", [⟨"sequence", [none]⟩]⟩,
   ⟨"intron", [⟨"sequence", [none]⟩]⟩]

/-- A schema where the same sequence-like column name holds data in two
scanned tables. -/
def dup_column_schema : Schema :=
  [⟨"exon", [⟨"seq_extra", [some "ATG"]⟩]⟩,
   ⟨"intron", [⟨"seq_extra", [some "ATG"]⟩]⟩]

/-- C6 is falsified at `dup_column_schema`: both probed pairs
`exon.seq_extra` and `intron.seq_extra` have a non-null non-empty value,
yet the locator returns only one descriptor (`total_sources = 1`), because
the heuristic scan skips any column whose (lower-cased) name already
occurs among the emitted descriptors' column names — across tables. -/
theorem c6_locator_counterexample :
    (check_dna_sequence_availability dup_column_schema).1
      = [("exon.seq_extra",
          ⟨"Exon seq_extra", "exon", "seq_extra", 1, none⟩)]
    ∧ (check_dna_sequence_availability dup_column_schema).2 = 1
    ∧ probe_count dup_column_schema "exon" "seq_extra" = some 1
    ∧ probe_count dup_column_schema "intron" "seq_extra" = some 1
    ∧ ∀ sd : SourceDescriptor, ("intron.seq_extra", sd)
        ∉ (check_dna_sequence_availability dup_column_schema).1 := by
  have h1 : (check_dna_sequence_availability dup_column_schema).1
      = [("exon.seq_extra",
          ⟨"Exon seq_extra", "exon", "seq_extra", 1, none⟩)] := by rfl
  refine ⟨h1, by rfl, by rfl, by rfl, ?_⟩
  intro sd h
  rw [h1] at h
  simp at h

/-- C6 amended: every returned descriptor corresponds to a probed
(table, column) pair with a positive non-empty row count — which the
descriptor records; every fixed-list candidate with data is returned;
`total_sources` is the number of descriptors; and on a schema where only
`gene.dna_sequence` has non-null data the result is exactly one descriptor
keyed `"gene.dna_sequence"` with `total_sources = 1`.  (A heuristically
scanned column with data may still be skipped when an already-emitted
descriptor has the same column name — see the counterexample.) -/
theorem c6_locator_soundness (db : Schema) :
    (∀ p ∈ (check_dna_sequence_availability db).1,
        probe_count db p.2.table p.2.column = some p.2.sequence_count
          ∧ 0 < p.2.sequence_count)
    ∧ (∀ t c d, (t, c, d) ∈ sequence_checks →
        ∀ n, probe_count db t c = some n → 0 < n →
          ∃ sd, (t ++ "." ++ c, sd)
            ∈ (check_dna_sequence_availability db).1)
    ∧ (check_dna_sequence_availability db).2
        = (check_dna_sequence_availability db).1.length
    ∧ ∃ av, check_dna_sequence_availability gene_only_schema
        = ([("gene.dna_sequence",
             ⟨"Gene DNA sequences", "gene", "dna_sequence", 1, av⟩)], 1) := by
  refine ⟨?_, ?_, rfl, ?_⟩
  · intro p hp
    exact phase2_sound db scan_tables _
      (phase1_sound db sequence_checks [] (by simp)) p hp
  · intro t c d hmem n hp hn
    obtain ⟨sd, hsd⟩ := phase1_adds db sequence_checks [] t c d hmem n hp hn
    exact ⟨sd, phase2_mono db scan_tables _ _ hsd⟩
  · exact ⟨avg_length ⟨"dna_sequence", [some "ATGC"]⟩, rfl⟩

/-- Witness for the amended C6: a fixed-list candidate with data
(`gene.dna_sequence` in `gene_only_schema`) is reported. -/
theorem c6_locator_soundness_witness :
    (("gene", "dna_sequence", "Gene DNA sequences") ∈ sequence_checks)
    ∧ probe_count gene_only_schema "gene" "dna_sequence" = some 1
    ∧ 0 < 1
    ∧ ∃ sd, ("gene" ++ "." ++ "dna_sequence", sd)
        ∈ (check_dna_sequence_availability gene_only_schema).1 :=
  ⟨by decide, by rfl, by decide,
    (c6_locator_soundness gene_only_schema).2.1 "gene" "dna_sequence"
      "Gene DNA sequences" (by decide) 1 (by rfl) (by decide)⟩
